import Mathlib

/-!
Shallow embedding of the emotion detection application core
(baseline_manager.py, image_processor.py, emotion_backends.py,
facs_backend.py).  Python floats are modelled as exact rationals;
Python `round(x, n)` is modelled by `roundTo` below.  Python dicts are
modelled as association lists in insertion order with unique keys
produced by construction.
-/

namespace EmotionApp

/-- Model of Python `round(x, n)`: scale, round to nearest integer and
scale back.  Ties are sent upward here; no claim in this development
depends on the tie direction. -/
def ratRound (x : ℚ) : ℤ := ⌊x + 1 / 2⌋

def roundTo (n : ℕ) (x : ℚ) : ℚ := (ratRound (x * 10 ^ n) : ℚ) / 10 ^ n

/-- Value stored for one action unit inside an `action_units` mapping:
the source stores intensity, description and muscle group; the muscle
group is never read by any code under analysis and is omitted. -/
structure AUInfo where
  intensity : ℚ
  description : String
deriving DecidableEq

/-- Python dict `AUCode -> {intensity, description, ...}` as an
association list in insertion order. -/
abbrev AUMap := List (String × AUInfo)

def lookupAU (m : AUMap) (au : String) : Option AUInfo :=
  (m.find? (fun p => p.1 == au)).map (·.2)

/-- Model of `aus.get(au_code, {}).get('intensity', 0.0)`. -/
def intensityOf (m : AUMap) (au : String) : ℚ :=
  ((lookupAU m au).map (·.intensity)).getD 0

/-- Model of `aus.get(au_code, {}).get('description')` (absent key gives none). -/
def descOf (m : AUMap) (au : String) : Option String :=
  (lookupAU m au).map (·.description)

/-- A FACS analysis result dictionary, as consumed by
`BaselineManager`.  Fields the source reads with `.get` and a default
are `Option`s; `action_units = none` models a dict without the key
(the check in `_is_valid_facs_result` is `'action_units' in facs_result`,
mere key presence). -/
structure FacsResult where
  face_detected : Bool
  analysis_type : Option String
  action_units : Option AUMap
  total_aus_detected : Option ℕ
  analyzer : Option String
deriving DecidableEq

/-- `BaselineManager._is_valid_facs_result` (baseline_manager.py lines
228-235): requires the `action_units` key to be present, the
`analysis_type` to equal `pure_facs` and `face_detected` to be truthy.
The `isinstance(..., dict)` test is vacuous in the typed embedding. -/
def is_valid_facs_result (r : FacsResult) : Bool :=
  r.action_units.isSome && (r.analysis_type == some "pure_facs") && r.face_detected

/-- The baseline document built by `set_baseline`
(baseline_manager.py lines 49-56). -/
structure BaselineData where
  person_id : String
  timestamp : String
  action_units : AUMap
  total_aus_detected : ℕ
  analyzer : String
  note : String
deriving DecidableEq

/-- State of a `BaselineManager` instance plus the durable per-person
file store (a key-value mapping keyed by person identifier). -/
structure ManagerState where
  current_baseline : Option BaselineData
  baseline_timestamp : Option String
  store : List (String × BaselineData)
deriving DecidableEq

/-- Overwrite the durable record for `pid` (the file
`pid_baseline.json` is rewritten wholesale). -/
def storeSet (st : List (String × BaselineData)) (pid : String) (d : BaselineData) :
    List (String × BaselineData) :=
  st.filter (fun p => p.1 != pid) ++ [(pid, d)]

/-- Remove the durable record for `pid` (`os.remove` of the baseline file). -/
def storeRemove (st : List (String × BaselineData)) (pid : String) :
    List (String × BaselineData) :=
  st.filter (fun p => p.1 != pid)

def storeGet (st : List (String × BaselineData)) (pid : String) : Option BaselineData :=
  (st.find? (fun p => p.1 == pid)).map (·.2)

/-- The `baseline_data` dictionary built by `set_baseline`; `now` is
the wall-clock reading `datetime.now().isoformat()` passed explicitly. -/
def mkBaselineData (r : FacsResult) (pid now : String) : BaselineData :=
  { person_id := pid
    timestamp := now
    action_units := r.action_units.getD []
    total_aus_detected := r.total_aus_detected.getD 0
    analyzer := r.analyzer.getD "unknown"
    note := "Baseline set for " ++ pid }

/-- `BaselineManager.set_baseline` (baseline_manager.py lines 32-72).
Validation failure returns `false` before any mutation; otherwise the
in-memory baseline and the durable store are updated and `true` is
returned.  The file-IO exception path is not modelled (writes always
succeed in the embedding). -/
def set_baseline (s : ManagerState) (r : FacsResult) (pid : String) (now : String) :
    Bool × ManagerState :=
  if is_valid_facs_result r then
    let d := mkBaselineData r pid now
    (true, { current_baseline := some d
             baseline_timestamp := some d.timestamp
             store := storeSet s.store pid d })
  else
    (false, s)

/-- `BaselineManager.clear_baseline` (baseline_manager.py lines
183-207): sets the in-memory baseline and timestamp to `None`
unconditionally, then removes the durable record for `pid`. -/
def clear_baseline (s : ManagerState) (pid : String) : Bool × ManagerState :=
  (true, { current_baseline := none
           baseline_timestamp := none
           store := storeRemove s.store pid })

/-- `BaselineManager._classify_change` (baseline_manager.py lines 237-246). -/
def classify_change (delta : ℚ) : String :=
  if |delta| < 1 / 10 then "minimal"
  else if |delta| < 3 / 10 then "moderate"
  else if |delta| < 1 / 2 then "significant"
  else "major"

/-- One entry of the `deltas` dictionary built by `calculate_delta`
(baseline_manager.py lines 141-148). -/
structure DeltaEntry where
  au : String
  delta : ℚ
  baseline : ℚ
  current : ℚ
  description : String
  change_type : String
deriving DecidableEq

/-- One entry of the `significant_changes` list
(baseline_manager.py lines 152-157); its `delta` field is the raw,
unrounded delta. -/
structure SigChange where
  au : String
  delta : ℚ
  description : String
  change_type : String
deriving DecidableEq

/-- One entry of the `movement_patterns` list
(baseline_manager.py lines 258-291). -/
structure MovementPattern where
  pattern : String
  description : String
  intensity : ℚ
deriving DecidableEq

/-- Unique elements of `l` not in `seen`, in first-occurrence order.
`counterKeys l` (with `seen = []`) models the iteration order of a
Python dict or `Counter` built by inserting the elements of `l` in
order, and fixes one order for `set(b) | set(c)` (whose CPython
iteration order is unspecified). -/
def counterKeysAux (seen : List String) : List String → List String
  | [] => []
  | a :: t => if a ∈ seen then counterKeysAux seen t else a :: counterKeysAux (a :: seen) t

def counterKeys (l : List String) : List String := counterKeysAux [] l

/-- The delta record built for one AU code inside the loop of
`calculate_delta` (baseline_manager.py lines 135-148); `bs` is the
baseline mapping, `cs` the current mapping. -/
def mkDeltaEntry (bs cs : AUMap) (au : String) : DeltaEntry :=
  let b := intensityOf bs au
  let c := intensityOf cs au
  { au := au
    delta := roundTo 3 (c - b)
    baseline := roundTo 3 b
    current := roundTo 3 c
    description := ((descOf cs au).or (descOf bs au)).getD "Unknown AU"
    change_type := classify_change (c - b) }

/-- Lookup `deltas.get(code, {}).get('delta', 0)` used by
`_detect_movement_patterns`. -/
def getPatternDelta (ds : List DeltaEntry) (au : String) : ℚ :=
  ((ds.find? (fun e => e.au == au)).map (·.delta)).getD 0

/-- `BaselineManager._detect_movement_patterns`
(baseline_manager.py lines 248-293).  The AU26 delta is read by the
source but not used in any condition. -/
def detect_movement_patterns (ds : List DeltaEntry) : List MovementPattern :=
  let au12 := getPatternDelta ds "AU12"
  let au06 := getPatternDelta ds "AU06"
  let smile : List MovementPattern :=
    if au12 > 3 / 10 then
      if au06 > 2 / 10 then
        [{ pattern := "Duchenne Smile Development"
           description := "Both lip corners and eye muscles activated"
           intensity := roundTo 2 ((au12 + au06) / 2) }]
      else
        [{ pattern := "Social Smile Development"
           description := "Lip corners activated without eye involvement"
           intensity := au12 }]
    else []
  let au15 := getPatternDelta ds "AU15"
  let au04 := getPatternDelta ds "AU04"
  let frown : List MovementPattern :=
    if au15 > 3 / 10 ∨ au04 > 3 / 10 then
      [{ pattern := "Frown Development"
         description := "Brow lowering or lip corner depression"
         intensity := max au15 au04 }]
    else []
  let au01 := getPatternDelta ds "AU01"
  let au02 := getPatternDelta ds "AU02"
  let brow : List MovementPattern :=
    if au01 > 2 / 10 ∧ au02 > 2 / 10 then
      [{ pattern := "Brow Flash"
         description := "Eyebrow raise movement"
         intensity := roundTo 2 ((au01 + au02) / 2) }]
    else []
  smile ++ frown ++ brow

/-- The successful payload of `calculate_delta`
(baseline_manager.py lines 165-174). -/
structure DeltaResult where
  baseline_timestamp : Option String
  baseline_person : String
  deltas : List DeltaEntry
  significant_changes : List SigChange
  movement_patterns : List MovementPattern
  total_movement : ℚ
deriving DecidableEq

/-- Outcome of `calculate_delta`: the two structured error
dictionaries or the full result. -/
inductive DeltaOutcome where
  | errNoBaseline
  | errInvalid
  | ok (res : DeltaResult)
deriving DecidableEq

def deltaResultOf : DeltaOutcome → Option DeltaResult
  | .ok r => some r
  | _ => none

/-- `BaselineManager.calculate_delta` (baseline_manager.py lines
102-181).  The set union `set(baseline) | set(current)` is iterated in
first-occurrence order of the concatenated key lists; the
`significant_changes` sort (`list.sort`, stable, descending by absolute
delta) is modelled by a stable insertion sort. -/
def calculate_delta (s : ManagerState) (r : FacsResult) : DeltaOutcome :=
  match s.current_baseline with
  | none => .errNoBaseline
  | some b =>
    if is_valid_facs_result r then
      let bs := b.action_units
      let cs := r.action_units.getD []
      let all_aus := counterKeys (bs.map (·.1) ++ cs.map (·.1))
      let deltas := all_aus.map (mkDeltaEntry bs cs)
      let sig := all_aus.filterMap (fun au =>
        let d := intensityOf cs au - intensityOf bs au
        if |d| > 2 / 10 then
          some { au := au, delta := d
                 description := (mkDeltaEntry bs cs au).description
                 change_type := classify_change d : SigChange }
        else none)
      .ok { baseline_timestamp := s.baseline_timestamp
            baseline_person := b.person_id
            deltas := deltas
            significant_changes :=
              sig.insertionSort (fun x y => |y.delta| ≤ |x.delta|)
            movement_patterns := detect_movement_patterns deltas
            total_movement := roundTo 2 ((deltas.map (fun e => |e.delta|)).sum) }
    else .errInvalid

/-- The consensus dictionary built by `compare_results`
(image_processor.py lines 142-160); `agreement_ratio` is absent in the
unanimous branch. -/
structure Consensus where
  emotion : String
  unanimous : Bool
  confidence : String
  agreement_ratio : Option ℚ
deriving DecidableEq

/-- Leftmost maximiser of `f` on a list: the semantics of Python
`max(iterable, key=f)`, which keeps the first element on ties. -/
def argmaxF {β : Type} [LinearOrder β] (f : String → β) : List String → Option String
  | [] => none
  | a :: t =>
    match argmaxF f t with
    | none => some a
    | some b => some (if f a < f b then b else a)

/-- `Counter(l).most_common(1)`: the unique labels of `l` are scanned
in first-occurrence order and the first label with maximal count wins. -/
def mostCommon1 (l : List String) : Option String :=
  argmaxF (fun x => l.count x) (counterKeys l)

/-- The consensus computation of `compare_results`
(image_processor.py lines 142-160) applied to the list
`all_dominants` of dominant labels of the qualifying records, in
input order.  Division `count / len` is Python true division, modelled
exactly on ℚ. -/
def consensusOf (all_dominants : List String) : Option Consensus :=
  match all_dominants with
  | [] => none
  | a :: rest =>
    if rest.all (fun x => x == a) then
      some { emotion := a, unanimous := true, confidence := "high", agreement_ratio := none }
    else
      match mostCommon1 (a :: rest) with
      | none => none
      | some e =>
        let n := (a :: rest).length
        let c := (a :: rest).count e
        some { emotion := e
               unanimous := false
               confidence := if c * 2 > n then "medium" else "low"
               agreement_ratio := some (roundTo 2 ((c : ℚ) / (n : ℚ))) }

/-! ### Detector adapters (emotion_backends.py, facs_backend.py) -/

/-- Normalized emotion record returned by the emotion adapters.  The
face bounding box fields (`box`, `region`), read from the library and
passed through untouched, are omitted; no claim mentions them. -/
structure EmotionRecord where
  error : Option String
  emotions : Option (List (String × ℚ))
  dominant_emotion : Option String
  backend : String
  confidence_score : Option ℚ
  face_detected : Bool
deriving DecidableEq

def lookupScore (m : List (String × ℚ)) (k : String) : ℚ :=
  ((m.find? (fun p => p.1 == k)).map (·.2)).getD 0

/-- Outcome of the underlying FER library call (including `cv2.imread`
returning `None`, which raises inside the `try` block): either some
exception was raised, or a list of detected faces is returned, each
carrying its raw emotion scores. -/
inductive FEROutcome where
  | raises (msg : String)
  | ok (faces : List (List (String × ℚ)))
deriving DecidableEq

/-- The fixed key order of the `normalized_emotions` dict literal in
`FERDetector.detect` (emotion_backends.py lines 60-68), paired with
the raw FER key each entry is read from. -/
def ferKeyTable : List (String × String) :=
  [("anger", "angry"), ("disgust", "disgust"), ("fear", "fear"),
   ("sadness", "sad"), ("neutral", "neutral"), ("surprise", "surprise"),
   ("happiness", "happy")]

/-- `FERDetector.detect` (emotion_backends.py lines 38-88). -/
def fer_detect (o : FEROutcome) : EmotionRecord :=
  match o with
  | .raises msg =>
    { error := some ("FER error analyzing image: " ++ msg)
      emotions := none, dominant_emotion := none, backend := "FER"
      confidence_score := none, face_detected := false }
  | .ok [] =>
    { error := some "No face detected"
      emotions := none, dominant_emotion := none, backend := "FER"
      confidence_score := none, face_detected := false }
  | .ok (face :: _) =>
    let normalized := ferKeyTable.map (fun p => (p.1, roundTo 2 (lookupScore face p.2)))
    let dominant := (argmaxF (lookupScore normalized) (normalized.map (·.1))).getD ""
    { error := none
      emotions := some normalized
      dominant_emotion := some dominant
      backend := "FER"
      confidence_score := some (roundTo 2 (lookupScore normalized dominant))
      face_detected := true }

/-- Outcome of the underlying DeepFace call: import failure, an
exception, or a result dictionary carrying raw emotion scores. -/
inductive DFOutcome where
  | importError (msg : String)
  | raises (msg : String)
  | ok (emotions : List (String × ℚ))
deriving DecidableEq

/-- `DeepFaceDetector._normalize_emotion_names`
(emotion_backends.py lines 111-140): remap DeepFace label names,
divide by 100 when the raw scores sum above 10, round to 2 decimals. -/
def df_normalize (raw : List (String × ℚ)) : List (String × ℚ) :=
  let mapName : String → String := fun k =>
    if k == "angry" then "anger"
    else if k == "happy" then "happiness"
    else if k == "sad" then "sadness"
    else k
  let total := (raw.map (·.2)).sum
  raw.map (fun p =>
    (mapName p.1, roundTo 2 (if total > 10 then p.2 / 100 else p.2)))

/-- `DeepFaceDetector.detect` (emotion_backends.py lines 142-213). -/
def df_detect (o : DFOutcome) : EmotionRecord :=
  match o with
  | .importError msg =>
    { error := some ("DeepFace not available: " ++ msg)
      emotions := none, dominant_emotion := none, backend := "DeepFace"
      confidence_score := none, face_detected := false }
  | .raises msg =>
    { error := some ("DeepFace error analyzing image: " ++ msg)
      emotions := none, dominant_emotion := none, backend := "DeepFace"
      confidence_score := none, face_detected := false }
  | .ok [] =>
    { error := some "No emotions detected"
      emotions := none, dominant_emotion := none, backend := "DeepFace"
      confidence_score := none, face_detected := false }
  | .ok (e :: es) =>
    let normalized := df_normalize (e :: es)
    let dominant := (argmaxF (lookupScore normalized) (normalized.map (·.1))).getD ""
    { error := none
      emotions := some normalized
      dominant_emotion := some dominant
      backend := "DeepFace"
      confidence_score := some (roundTo 2 (lookupScore normalized dominant))
      face_detected := true }

/-- Action unit record returned by `FACSDetector.analyze`;
`facs_combinations` and the bounding box are passed through as built
and are not needed by any claim, so only their presence shape matters
and they are omitted. -/
structure ActionUnitRecord where
  error : Option String
  action_units : Option AUMap
  analyzer : String
  face_detected : Bool
  analysis_type : String
  total_aus_detected : Option ℕ
deriving DecidableEq

/-- Outcome of the underlying py-feat call: import failure, an
exception (including unreadable images), or a detection frame whose
rows are column-name/value pairs (a `none` value models NaN). -/
inductive FACSOutcome where
  | importError (msg : String)
  | raises (msg : String)
  | ok (rows : List (List (String × Option ℚ)))
deriving DecidableEq

/-- `FACSDetector._get_au_descriptions`
(facs_backend.py lines 214-240), as read through
`au_descriptions.get(col, 'Unknown Action Unit')`. -/
def auDescription (au : String) : String :=
  (((([("AU01", "Inner Brow Raiser"), ("AU02", "Outer Brow Raiser"),
      ("AU04", "Brow Lowerer"), ("AU05", "Upper Lid Raiser"),
      ("AU06", "Cheek Raiser"), ("AU07", "Lid Tightener"),
      ("AU09", "Nose Wrinkler"), ("AU10", "Upper Lip Raiser"),
      ("AU11", "Nasolabial Deepener"), ("AU12", "Lip Corner Puller"),
      ("AU13", "Sharp Lip Puller"), ("AU14", "Dimpler"),
      ("AU15", "Lip Corner Depressor"), ("AU16", "Lower Lip Depressor"),
      ("AU17", "Chin Raiser"), ("AU18", "Lip Pucker"),
      ("AU19", "Tongue Show"), ("AU20", "Lip Stretcher"),
      ("AU22", "Lip Funneler"), ("AU23", "Lip Tightener"),
      ("AU24", "Lip Pressor"), ("AU25", "Lips Part"),
      ("AU26", "Jaw Drop"), ("AU27", "Mouth Stretch"),
      ("AU28", "Lip Suck"), ("AU43", "Eyes Closed")] :
        List (String × String)).find? (fun p => p.1 == au)).map (·.2)).getD
    "Unknown Action Unit")

/-- The action unit extraction loop of `FACSDetector.analyze`
(facs_backend.py lines 160-172): keep intensity columns named `AU...`
(not the `_c` classification columns) whose value is a number above
0.1, rounded to 3 decimals. -/
def extractAUs (row : List (String × Option ℚ)) : AUMap :=
  row.filterMap (fun p =>
    if p.1.startsWith "AU" && !(p.1.endsWith "_c") then
      match p.2 with
      | some v => if v > 1 / 10 then
          some (p.1, { intensity := roundTo 3 v, description := auDescription p.1 })
        else none
      | none => none
    else none)

/-- `FACSDetector.analyze` (facs_backend.py lines 129-212); the
analyzer name attribute of the class is the string FACS. -/
def facs_analyze (o : FACSOutcome) : ActionUnitRecord :=
  match o with
  | .importError msg =>
    { error := some ("FACS detector not available: " ++ msg)
      action_units := none, analyzer := "FACS", face_detected := false
      analysis_type := "pure_facs", total_aus_detected := none }
  | .raises msg =>
    { error := some ("FACS error analyzing image: " ++ msg)
      action_units := none, analyzer := "FACS", face_detected := false
      analysis_type := "pure_facs", total_aus_detected := none }
  | .ok [] =>
    { error := some "No face detected"
      action_units := none, analyzer := "FACS", face_detected := false
      analysis_type := "pure_facs", total_aus_detected := none }
  | .ok (row :: _) =>
    let aus := extractAUs row
    { error := none
      action_units := some aus
      analyzer := "FACS"
      face_detected := true
      analysis_type := "pure_facs"
      total_aus_detected := some aus.length }

/-- Failure modes of the underlying FER call: an exception, or an
empty face list (which is both the no-face case and the empty score
data case at the FER interface, whose score data is the face list). -/
def ferFailure : FEROutcome → Prop
  | .raises _ => True
  | .ok faces => faces = []

/-- Failure modes of the underlying DeepFace call: unavailable
library, an exception, or an empty emotion-score mapping. -/
def dfFailure : DFOutcome → Prop
  | .importError _ => True
  | .raises _ => True
  | .ok es => es = []

/-- Failure modes of the underlying py-feat call: unavailable library,
an exception, or a `None`/empty detection frame. -/
def facsFailure : FACSOutcome → Prop
  | .importError _ => True
  | .raises _ => True
  | .ok rows => rows = []

/-! ### Concrete sample data used by witnesses and counterexamples -/

/-- A valid FACS result whose `action_units` key is present but maps to
an empty dictionary. -/
def recEmptyAUs : FacsResult :=
  { face_detected := true, analysis_type := some "pure_facs"
    action_units := some [], total_aus_detected := some 0, analyzer := some "FACS" }

/-- A valid FACS result carrying AU12 at intensity 0.6. -/
def recAU12 : FacsResult :=
  { face_detected := true, analysis_type := some "pure_facs"
    action_units := some [("AU12", { intensity := 6 / 10, description := "Lip Corner Puller" })]
    total_aus_detected := some 1, analyzer := some "FACS" }

/-- A stored baseline carrying AU12 at intensity 0.2. -/
def baseAU12 : BaselineData :=
  { person_id := "default", timestamp := "t0"
    action_units := [("AU12", { intensity := 2 / 10, description := "Lip Corner Puller" })]
    total_aus_detected := 1, analyzer := "FACS", note := "Baseline set for default" }

/-- Manager state with `baseAU12` active. -/
def stateAU12 : ManagerState :=
  { current_baseline := some baseAU12, baseline_timestamp := some "t0", store := [] }

/-- Manager state with no baseline and an empty store. -/
def emptyState : ManagerState :=
  { current_baseline := none, baseline_timestamp := none, store := [] }

/-- A stored baseline belonging to the person `alice` (no AUs needed). -/
def baseAlice : BaselineData :=
  { person_id := "alice", timestamp := "t0", action_units := []
    total_aus_detected := 0, analyzer := "FACS", note := "Baseline set for alice" }

/-- Manager state whose active baseline belongs to `alice`. -/
def stateAlice : ManagerState :=
  { current_baseline := some baseAlice, baseline_timestamp := some "t0"
    store := [("alice", baseAlice)] }

/-- The movement pattern reported on the concrete AU12 scenario. -/
def socialAU12 : MovementPattern :=
  { pattern := "Social Smile Development"
    description := "Lip corners activated without eye involvement"
    intensity := 2 / 5 }

/-- The value of `calculate_delta stateAU12 recAU12`, written out. -/
def resAU12 : DeltaResult :=
  { baseline_timestamp := some "t0", baseline_person := "default"
    deltas := [{ au := "AU12", delta := 2 / 5, baseline := 1 / 5, current := 3 / 5,
                 description := "Lip Corner Puller", change_type := "significant" }]
    significant_changes :=
      [{ au := "AU12", delta := 2 / 5,
         description := "Lip Corner Puller", change_type := "significant" }]
    movement_patterns := [socialAU12]
    total_movement := 2 / 5 }

/-- A delta map with AU12 delta 0.401 and AU06 delta 0.202; both are
reachable outputs of the 3-decimal delta rounding. -/
def ds6 : List DeltaEntry :=
  [{ au := "AU12", delta := 401 / 1000, baseline := 0, current := 401 / 1000,
     description := "Lip Corner Puller", change_type := "significant" },
   { au := "AU06", delta := 202 / 1000, baseline := 0, current := 202 / 1000,
     description := "Cheek Raiser", change_type := "moderate" }]

/-- The single pattern detected on `ds6`. -/
def duchenne6 : MovementPattern :=
  { pattern := "Duchenne Smile Development"
    description := "Both lip corners and eye muscles activated"
    intensity := 3 / 10 }

/-! ### Basic lemmas about the embedding -/

lemma roundTo_mono {n : ℕ} {x y : ℚ} (h : x ≤ y) : roundTo n x ≤ roundTo n y := by
  unfold roundTo ratRound
  have h10 : (0 : ℚ) < 10 ^ n := by positivity
  have hf : ⌊x * 10 ^ n + 1 / 2⌋ ≤ ⌊y * 10 ^ n + 1 / 2⌋ := by
    apply Int.floor_mono
    have := mul_le_mul_of_nonneg_right h (le_of_lt h10)
    linarith
  exact (div_le_div_iff_of_pos_right h10).mpr (by exact_mod_cast hf)

lemma mem_counterKeysAux {x : String} :
    ∀ (l seen : List String), x ∈ counterKeysAux seen l ↔ x ∈ l ∧ x ∉ seen := by
  intro l
  induction l with
  | nil => intro seen; simp [counterKeysAux]
  | cons a t ih =>
    intro seen
    simp only [counterKeysAux]
    split_ifs with ha
    · rw [ih]
      simp only [List.mem_cons]
      constructor
      · rintro ⟨hx, hs⟩; exact ⟨Or.inr hx, hs⟩
      · rintro ⟨hx | hx, hs⟩
        · exact absurd (hx ▸ ha) hs
        · exact ⟨hx, hs⟩
    · simp only [List.mem_cons]
      constructor
      · rintro (hx | hx)
        · exact ⟨Or.inl hx, hx ▸ ha⟩
        · rw [ih] at hx
          exact ⟨Or.inr hx.1, fun hmem => hx.2 (List.mem_cons_of_mem _ hmem)⟩
      · rintro ⟨hx | hx, hs⟩
        · exact Or.inl hx
        · by_cases hxa : x = a
          · exact Or.inl hxa
          · exact Or.inr ((ih _).mpr ⟨hx, by simp [hxa, hs]⟩)

lemma mem_counterKeys {x : String} {l : List String} : x ∈ counterKeys l ↔ x ∈ l := by
  unfold counterKeys
  rw [mem_counterKeysAux]
  simp

lemma nodup_counterKeysAux : ∀ (l seen : List String), (counterKeysAux seen l).Nodup := by
  intro l
  induction l with
  | nil => intro seen; simp [counterKeysAux]
  | cons a t ih =>
    intro seen
    simp only [counterKeysAux]
    split_ifs with ha
    · exact ih _
    · refine List.nodup_cons.mpr ⟨fun hmem => ?_, ih _⟩
      exact ((mem_counterKeysAux _ _).mp hmem).2 (List.mem_cons_self _ _)

lemma nodup_counterKeys (l : List String) : (counterKeys l).Nodup :=
  nodup_counterKeysAux l []

lemma counterKeysAux_congr :
    ∀ (l s₁ s₂ : List String), (∀ x, x ∈ s₁ ↔ x ∈ s₂) →
      counterKeysAux s₁ l = counterKeysAux s₂ l := by
  intro l
  induction l with
  | nil => intro s₁ s₂ _; rfl
  | cons a t ih =>
    intro s₁ s₂ h
    simp only [counterKeysAux]
    by_cases ha : a ∈ s₁
    · rw [if_pos ha, if_pos ((h a).mp ha), ih _ _ h]
    · rw [if_neg ha, if_neg (fun c => ha ((h a).mpr c))]
      have : ∀ x, x ∈ a :: s₁ ↔ x ∈ a :: s₂ := by
        intro x; simp only [List.mem_cons]; rw [h x]
      rw [ih _ _ this]

lemma counterKeysAux_cons_eq_filter (a : String) :
    ∀ (l seen : List String),
      counterKeysAux (a :: seen) l = counterKeysAux seen (l.filter (fun x => x != a)) := by
  intro l
  induction l with
  | nil => intro seen; rfl
  | cons b t ih =>
    intro seen
    by_cases hba : b = a
    · subst hba
      have hf : (b :: t).filter (fun x => x != b) = t.filter (fun x => x != b) := by
        simp [List.filter_cons]
      rw [hf]
      simp only [counterKeysAux, List.mem_cons, true_or, if_true]
      exact ih seen
    · have hf : (b :: t).filter (fun x => x != a) = b :: t.filter (fun x => x != a) := by
        simp [List.filter_cons, hba]
      rw [hf]
      by_cases hbs : b ∈ seen
      · have h1 : b ∈ a :: seen := List.mem_cons_of_mem _ hbs
        simp only [counterKeysAux, if_pos h1, if_pos hbs]
        exact ih seen
      · have h1 : b ∉ a :: seen := by simp [hba, hbs]
        simp only [counterKeysAux, if_neg h1, if_neg hbs]
        congr 1
        rw [counterKeysAux_congr t (b :: a :: seen) (a :: b :: seen)
          (by intro x; simp only [List.mem_cons]; tauto)]
        exact ih (b :: seen)

lemma counterKeys_cons (a : String) (l : List String) :
    counterKeys (a :: l) = a :: counterKeys (l.filter (fun x => x != a)) := by
  unfold counterKeys
  simp only [counterKeysAux, List.not_mem_nil, if_false]
  congr 1
  exact counterKeysAux_cons_eq_filter a l []

lemma argmaxF_eq_none {β : Type} [LinearOrder β] (f : String → β) :
    ∀ l : List String, argmaxF f l = none ↔ l = [] := by
  intro l
  cases l with
  | nil => simp [argmaxF]
  | cons a t =>
    simp only [argmaxF]
    cases argmaxF f t <;> simp

/-- The leftmost maximiser returned by `argmaxF` is a member, is
maximal, and precedes every other element attaining the maximum. -/
lemma argmaxF_spec {β : Type} [LinearOrder β] (f : String → β) :
    ∀ (l : List String) (e : String), argmaxF f l = some e →
      e ∈ l ∧ (∀ x ∈ l, f x ≤ f e) ∧
      (∀ x ∈ l, f x = f e → x ≠ e → l.indexOf e < l.indexOf x) := by
  intro l
  induction l with
  | nil => intro e h; simp [argmaxF] at h
  | cons a t ih =>
    intro e h
    simp only [argmaxF] at h
    cases ht : argmaxF f t with
    | none =>
      rw [ht] at h
      dsimp only at h
      have hea : e = a := by injection h with h; exact h.symm
      subst hea
      have ht' : t = [] := (argmaxF_eq_none f t).mp ht
      subst ht'
      refine ⟨List.mem_cons_self _ _, ?_, ?_⟩
      · intro x hx
        have : x = e := by simpa using hx
        exact this ▸ le_refl _
      · intro x hx _ hxe
        exact absurd (by simpa using hx) hxe
    | some b =>
      rw [ht] at h
      dsimp only at h
      obtain ⟨hbmem, hbmax, hbtie⟩ := ih b ht
      by_cases hab : f a < f b
      · rw [if_pos hab] at h
        have heb : e = b := by injection h with h; exact h.symm
        subst heb
        refine ⟨List.mem_cons_of_mem _ hbmem, ?_, ?_⟩
        · intro x hx
          rcases List.mem_cons.mp hx with h1 | h1
          · exact h1 ▸ le_of_lt hab
          · exact hbmax x h1
        · intro x hx hfx hxe
          have hxa : x ≠ a := by
            intro hh
            rw [hh] at hfx
            exact absurd hfx (ne_of_lt hab)
          have hba : a ≠ e := by
            intro hh
            rw [← hh] at hab
            exact lt_irrefl _ hab
          rcases List.mem_cons.mp hx with h1 | h1
          · exact absurd h1 hxa
          · rw [List.indexOf_cons_ne _ hba, List.indexOf_cons_ne _ (Ne.symm hxa)]
            exact Nat.succ_lt_succ (hbtie x h1 hfx hxe)
      · rw [if_neg hab] at h
        have hea : e = a := by injection h with h; exact h.symm
        subst hea
        push_neg at hab
        refine ⟨List.mem_cons_self _ _, ?_, ?_⟩
        · intro x hx
          rcases List.mem_cons.mp hx with h1 | h1
          · exact h1 ▸ le_refl _
          · exact le_trans (hbmax x h1) hab
        · intro x _ _ hxe
          rw [List.indexOf_cons_self, List.indexOf_cons_ne _ (Ne.symm hxe)]
          exact Nat.succ_pos _

/-- Filtering preserves the relative order of first occurrences. -/
lemma indexOf_filter_lt (p : String → Bool) :
    ∀ (l : List String) (e x : String), e ∈ l.filter p → x ∈ l.filter p →
      (l.filter p).indexOf e < (l.filter p).indexOf x → l.indexOf e < l.indexOf x := by
  intro l
  induction l with
  | nil => intro e x he _ _; simp at he
  | cons b t ih =>
    intro e x he hx hlt
    by_cases hpb : p b
    · rw [List.filter_cons_of_pos hpb] at he hx hlt
      by_cases heb : e = b
      · subst heb
        have hxb : x ≠ e := by
          intro hh
          rw [hh, List.indexOf_cons_self] at hlt
          exact Nat.lt_irrefl _ hlt
        rw [List.indexOf_cons_self, List.indexOf_cons_ne _ (Ne.symm hxb)]
        exact Nat.succ_pos _
      · by_cases hxb : x = b
        · subst hxb
          rw [List.indexOf_cons_self] at hlt
          exact absurd hlt (Nat.not_lt_zero _)
        · rw [List.indexOf_cons_ne _ (Ne.symm heb), List.indexOf_cons_ne _ (Ne.symm hxb)] at hlt
          rw [List.indexOf_cons_ne _ (Ne.symm heb), List.indexOf_cons_ne _ (Ne.symm hxb)]
          have he' : e ∈ t.filter p := by
            rcases List.mem_cons.mp he with h1 | h1
            · exact absurd h1 heb
            · exact h1
          have hx' : x ∈ t.filter p := by
            rcases List.mem_cons.mp hx with h1 | h1
            · exact absurd h1 hxb
            · exact h1
          exact Nat.succ_lt_succ (ih e x he' hx' (Nat.lt_of_succ_lt_succ hlt))
    · rw [List.filter_cons_of_neg hpb] at he hx hlt
      have heb : e ≠ b := by
        intro hh
        exact hpb (hh ▸ List.of_mem_filter he)
      have hxb : x ≠ b := by
        intro hh
        exact hpb (hh ▸ List.of_mem_filter hx)
      rw [List.indexOf_cons_ne _ (Ne.symm heb), List.indexOf_cons_ne _ (Ne.symm hxb)]
      exact Nat.succ_lt_succ (ih e x he hx hlt)

/-- The unique-key list preserves the relative order of first occurrences. -/
lemma counterKeys_indexOf_lt :
    ∀ (n : ℕ) (l : List String), l.length ≤ n → ∀ e x : String, e ∈ l → x ∈ l →
      (counterKeys l).indexOf e < (counterKeys l).indexOf x → l.indexOf e < l.indexOf x := by
  intro n
  induction n with
  | zero =>
    intro l hl e x he _ _
    rw [Nat.le_zero, List.length_eq_zero] at hl
    subst hl
    simp at he
  | succ n ih =>
    intro l hl e x he hx hlt
    cases l with
    | nil => simp at he
    | cons a t =>
      rw [counterKeys_cons] at hlt
      by_cases hea : e = a
      · subst hea
        have hxe : x ≠ e := by
          intro hh
          rw [hh, List.indexOf_cons_self] at hlt
          exact Nat.lt_irrefl _ hlt
        rw [List.indexOf_cons_self, List.indexOf_cons_ne _ (Ne.symm hxe)]
        exact Nat.succ_pos _
      · by_cases hxa : x = a
        · subst hxa
          rw [List.indexOf_cons_self] at hlt
          exact absurd hlt (Nat.not_lt_zero _)
        · have he' : e ∈ t.filter (fun y => y != a) := by
            rcases List.mem_cons.mp he with h1 | h1
            · exact absurd h1 hea
            · exact List.mem_filter.mpr ⟨h1, by simpa using hea⟩
          have hx' : x ∈ t.filter (fun y => y != a) := by
            rcases List.mem_cons.mp hx with h1 | h1
            · exact absurd h1 hxa
            · exact List.mem_filter.mpr ⟨h1, by simpa using hxa⟩
          rw [List.indexOf_cons_ne _ (Ne.symm hea), List.indexOf_cons_ne _ (Ne.symm hxa)] at hlt
          have hlen : (t.filter (fun y => y != a)).length ≤ n :=
            le_trans (List.length_filter_le _ _) (Nat.le_of_succ_le_succ hl)
          have h1 := ih _ hlen e x he' hx' (Nat.lt_of_succ_lt_succ hlt)
          have h2 := indexOf_filter_lt _ t e x he' hx' h1
          rw [List.indexOf_cons_ne _ (Ne.symm hea), List.indexOf_cons_ne _ (Ne.symm hxa)]
          exact Nat.succ_lt_succ h2

/-- Specification of `Counter(l).most_common(1)`: the winner occurs in
`l`, has maximal count, and its first occurrence precedes the first
occurrence of every other label with the same count. -/
lemma mostCommon1_spec {l : List String} {e : String} (h : mostCommon1 l = some e) :
    e ∈ l ∧ (∀ x ∈ l, l.count x ≤ l.count e) ∧
    (∀ x ∈ l, l.count x = l.count e → x ≠ e → l.indexOf e < l.indexOf x) := by
  obtain ⟨hmem, hmax, htie⟩ := argmaxF_spec (fun x => l.count x) (counterKeys l) e h
  refine ⟨mem_counterKeys.mp hmem, fun x hx => hmax x (mem_counterKeys.mpr hx),
    fun x hx hc hxe => ?_⟩
  exact counterKeys_indexOf_lt l.length l le_rfl e x (mem_counterKeys.mp hmem) hx
    (htie x (mem_counterKeys.mpr hx) hc hxe)

lemma mostCommon1_isSome {a : String} {t : List String} :
    ∃ e, mostCommon1 (a :: t) = some e := by
  cases h : mostCommon1 (a :: t) with
  | some e => exact ⟨e, rfl⟩
  | none =>
    exfalso
    unfold mostCommon1 at h
    rw [argmaxF_eq_none, counterKeys_cons] at h
    exact List.cons_ne_nil _ _ h

lemma mkDeltaEntry_au (bs cs : AUMap) (au : String) : (mkDeltaEntry bs cs au).au = au := rfl

lemma find?_map_mkDeltaEntry (bs cs : AUMap) :
    ∀ (aus : List String) (au : String), au ∈ aus →
      (aus.map (mkDeltaEntry bs cs)).find? (fun e => e.au == au) =
        some (mkDeltaEntry bs cs au) := by
  intro aus
  induction aus with
  | nil => intro au h; simp at h
  | cons a t ih =>
    intro au h
    simp only [List.map_cons, List.find?]
    by_cases ha : a = au
    · subst ha
      simp [mkDeltaEntry_au]
    · have hb : ((mkDeltaEntry bs cs a).au == au) = false := by
        simp [mkDeltaEntry_au, ha]
      rw [hb]
      rcases List.mem_cons.mp h with h1 | h1
      · exact absurd h1.symm ha
      · exact ih au h1

lemma getPatternDelta_of_mem {bs cs : AUMap} {aus : List String} {au : String}
    (h : au ∈ aus) :
    getPatternDelta (aus.map (mkDeltaEntry bs cs)) au =
      roundTo 3 (intensityOf cs au - intensityOf bs au) := by
  unfold getPatternDelta
  rw [find?_map_mkDeltaEntry bs cs aus au h]
  rfl

lemma getPatternDelta_of_not_mem {bs cs : AUMap} {aus : List String} {au : String}
    (h : au ∉ aus) :
    getPatternDelta (aus.map (mkDeltaEntry bs cs)) au = 0 := by
  unfold getPatternDelta
  have : (aus.map (mkDeltaEntry bs cs)).find? (fun e => e.au == au) = none := by
    rw [List.find?_eq_none]
    intro e he
    obtain ⟨x, hx, hex⟩ := List.mem_map.mp he
    subst hex
    simp only [mkDeltaEntry_au, beq_eq_false_iff_ne, ne_eq]
    intro hxa
    have hx2 : x = au := eq_of_beq hxa
    subst hx2
    exact h hx
  rw [this]
  rfl

lemma storeGet_storeSet_self (st : List (String × BaselineData)) (pid : String)
    (d : BaselineData) : storeGet (storeSet st pid d) pid = some d := by
  unfold storeGet storeSet
  induction st with
  | nil => simp [List.find?]
  | cons hd t ih =>
    by_cases h : hd.1 = pid
    · have hb : (hd.1 != pid) = false := by simp [h]
      simp only [List.filter_cons, hb, Bool.false_eq_true, if_false]
      exact ih
    · have hb : (hd.1 != pid) = true := by simp [h]
      have hb2 : (hd.1 == pid) = false := by simp [h]
      simp only [List.filter_cons, hb, if_true, List.cons_append, List.find?, hb2]
      exact ih

lemma storeSet_storeSet (st : List (String × BaselineData)) (pid : String)
    (d d' : BaselineData) : storeSet (storeSet st pid d) pid d' = storeSet st pid d' := by
  unfold storeSet
  rw [List.filter_append, List.filter_filter]
  simp

/-- Full case characterization of `_classify_change`, shared by several
claims below. -/
lemma classify_spec (d : ℚ) :
    (classify_change d = "minimal" ↔ |d| < 1 / 10) ∧
    (classify_change d = "moderate" ↔ 1 / 10 ≤ |d| ∧ |d| < 3 / 10) ∧
    (classify_change d = "significant" ↔ 3 / 10 ≤ |d| ∧ |d| < 1 / 2) ∧
    (classify_change d = "major" ↔ 1 / 2 ≤ |d|) := by
  unfold classify_change
  split_ifs with h1 h2 h3
  · refine ⟨⟨fun _ => h1, fun _ => rfl⟩, ⟨?_, ?_⟩, ⟨?_, ?_⟩, ⟨?_, ?_⟩⟩
    · intro hh; exact absurd hh (by decide)
    · rintro ⟨hle, _⟩; exact absurd h1 (not_lt.mpr hle)
    · intro hh; exact absurd hh (by decide)
    · rintro ⟨hle, _⟩; exact absurd h1 (not_lt.mpr (by linarith))
    · intro hh; exact absurd hh (by decide)
    · intro hle; exact absurd h1 (not_lt.mpr (by linarith))
  · refine ⟨⟨?_, ?_⟩, ⟨fun _ => ⟨not_lt.mp h1, h2⟩, fun _ => rfl⟩, ⟨?_, ?_⟩, ⟨?_, ?_⟩⟩
    · intro hh; exact absurd hh (by decide)
    · intro hle; exact absurd hle (not_lt.mpr (not_lt.mp h1))
    · intro hh; exact absurd hh (by decide)
    · rintro ⟨hle, _⟩; exact absurd h2 (not_lt.mpr hle)
    · intro hh; exact absurd hh (by decide)
    · intro hle; exact absurd h2 (not_lt.mpr (by linarith))
  · refine ⟨⟨?_, ?_⟩, ⟨?_, ?_⟩, ⟨fun _ => ⟨not_lt.mp h2, h3⟩, fun _ => rfl⟩, ⟨?_, ?_⟩⟩
    · intro hh; exact absurd hh (by decide)
    · intro hle; exact absurd hle (not_lt.mpr (by linarith [not_lt.mp h2]))
    · intro hh; exact absurd hh (by decide)
    · rintro ⟨_, hlt⟩; exact absurd hlt (not_lt.mpr (not_lt.mp h2))
    · intro hh; exact absurd hh (by decide)
    · intro hle; exact absurd h3 (not_lt.mpr hle)
  · refine ⟨⟨?_, ?_⟩, ⟨?_, ?_⟩, ⟨?_, ?_⟩, ⟨fun _ => not_lt.mp h3, fun _ => rfl⟩⟩
    · intro hh; exact absurd hh (by decide)
    · intro hle; exact absurd hle (not_lt.mpr (by linarith [not_lt.mp h3]))
    · intro hh; exact absurd hh (by decide)
    · rintro ⟨_, hlt⟩; exact absurd hlt (not_lt.mpr (by linarith [not_lt.mp h3]))
    · intro hh; exact absurd hh (by decide)
    · rintro ⟨_, hlt⟩; exact absurd hlt (not_lt.mpr (not_lt.mp h3))

lemma classify_of_sig {d : ℚ} (h : 2 / 10 < |d|) :
    classify_change d ≠ "minimal" ∧
    (classify_change d = "moderate" ∨ classify_change d = "significant" ∨
      classify_change d = "major") := by
  unfold classify_change
  split_ifs with h1 h2 h3
  · exact absurd h1 (not_lt.mpr (by linarith))
  · exact ⟨by decide, Or.inl rfl⟩
  · exact ⟨by decide, Or.inr (Or.inl rfl)⟩
  · exact ⟨by decide, Or.inr (Or.inr rfl)⟩

lemma is_valid_iff (r : FacsResult) :
    is_valid_facs_result r = true ↔
      r.face_detected = true ∧ r.action_units.isSome = true ∧
      r.analysis_type = some "pure_facs" := by
  unfold is_valid_facs_result
  simp only [Bool.and_eq_true, beq_iff_eq]
  tauto

/-- Evaluation of `calculate_delta` on the concrete AU12 scenario. -/
lemma calc_AU12 : calculate_delta stateAU12 recAU12 = DeltaOutcome.ok resAU12 := by
  norm_num [calculate_delta, stateAU12, recAU12, baseAU12, resAU12, socialAU12,
    is_valid_facs_result,
    counterKeys, counterKeysAux, mkDeltaEntry, intensityOf, lookupAU, descOf,
    classify_change, roundTo, ratRound, detect_movement_patterns, getPatternDelta,
    abs_of_nonneg, List.insertionSort, List.orderedInsert,
    List.find?_cons_of_pos, List.find?_cons_of_neg, List.find?_nil,
    List.filterMap_cons, List.filterMap_nil, beq_self_eq_true]
  norm_num +decide [roundTo, ratRound]

/-- Evaluation of the pattern detector on the concrete `ds6` map. -/
lemma detect_ds6 : detect_movement_patterns ds6 = [duchenne6] := by
  norm_num [detect_movement_patterns, ds6, duchenne6, getPatternDelta, roundTo, ratRound,
    List.find?_cons_of_pos, List.find?_cons_of_neg, List.find?_nil]
  norm_num +decide [roundTo, ratRound]

/-! ### Claim theorems -/

/-- C8: for every delta value d, the change classification is
`minimal` when the absolute delta is below 0.1, `moderate` when it is
in [0.1, 0.3), `significant` when it is in [0.3, 0.5) and `major` when
it is at least 0.5, every stated upper bound being a strict
less-than. -/
theorem C8_change_classification (d : ℚ) :
    (classify_change d = "minimal" ↔ |d| < 1 / 10) ∧
    (classify_change d = "moderate" ↔ 1 / 10 ≤ |d| ∧ |d| < 3 / 10) ∧
    (classify_change d = "significant" ↔ 3 / 10 ≤ |d| ∧ |d| < 1 / 2) ∧
    (classify_change d = "major" ↔ 1 / 2 ≤ |d|) :=
  classify_spec d

/-- C4 counterexample: clearing the baseline for `bob` removes the
in-memory baseline belonging to `alice`, although the claim states it
is removed only when the identifiers match. -/
theorem C4_counterexample :
    (clear_baseline stateAlice "bob").2.current_baseline = none ∧
    stateAlice.current_baseline = some baseAlice ∧
    baseAlice.person_id ≠ "bob" := by
  refine ⟨rfl, rfl, ?_⟩
  decide

/-- C4 (amended): `clear_baseline` always returns true, sets the
in-memory baseline and timestamp to none regardless of the identifier,
and removes the durable record for the given identifier. -/
theorem C4_clear_baseline (s : ManagerState) (pid : String) :
    clear_baseline s pid =
      (true, { current_baseline := none, baseline_timestamp := none
               store := storeRemove s.store pid }) := rfl

/-- C1 counterexample: a record with `face_detected` true, analysis
type `pure_facs` and a present but empty `action_units` mapping is
accepted by `set_baseline` (return value true, state mutated),
although the claim states it must be rejected. -/
theorem C1_counterexample :
    (set_baseline emptyState recEmptyAUs "alice" "t1").1 = true ∧
    (set_baseline emptyState recEmptyAUs "alice" "t1").2 ≠ emptyState := by
  constructor
  · rfl
  · decide

/-- C1 (amended): `set_baseline` succeeds exactly when the record has
`face_detected` true, a present `action_units` key (emptiness is not
checked) and analysis type `pure_facs`; on failure the state is
unchanged, on success the built baseline document is stored both in
memory and in the durable store. -/
theorem C1_set_baseline_validation (s : ManagerState) (r : FacsResult) (pid now : String) :
    ((set_baseline s r pid now).1 = true ↔
      r.face_detected = true ∧ r.action_units.isSome = true ∧
      r.analysis_type = some "pure_facs") ∧
    ((set_baseline s r pid now).1 = false → (set_baseline s r pid now).2 = s) ∧
    ((set_baseline s r pid now).1 = true →
      (set_baseline s r pid now).2.current_baseline = some (mkBaselineData r pid now) ∧
      storeGet (set_baseline s r pid now).2.store pid = some (mkBaselineData r pid now)) := by
  unfold set_baseline
  by_cases hv : is_valid_facs_result r = true
  · rw [if_pos hv]
    refine ⟨⟨fun _ => (is_valid_iff r).mp hv, fun _ => rfl⟩, ?_, ?_⟩
    · intro hfalse
      exact absurd hfalse (by simp)
    · intro _
      exact ⟨rfl, storeGet_storeSet_self s.store pid (mkBaselineData r pid now)⟩
  · rw [if_neg hv]
    refine ⟨⟨fun htrue => absurd htrue (by simp), fun hcond => ?_⟩, fun _ => rfl, ?_⟩
    · exact absurd ((is_valid_iff r).mpr hcond) hv
    · intro htrue
      exact absurd htrue (by simp)

/-- C1 witness: the amended validation theorem applied to the
empty-`action_units` record. -/
theorem C1_witness :
    (set_baseline emptyState recEmptyAUs "alice" "t1").2.current_baseline =
      some (mkBaselineData recEmptyAUs "alice" "t1") :=
  ((C1_set_baseline_validation emptyState recEmptyAUs "alice" "t1").2.2 (by decide)).1

/-- C9 counterexample: two consecutive `set_baseline` calls with the
same record and person but different wall-clock readings store
different baselines (their timestamp fields differ). -/
theorem C9_counterexample :
    (set_baseline (set_baseline emptyState recEmptyAUs "p" "t1").2
        recEmptyAUs "p" "t2").2.current_baseline ≠
      (set_baseline emptyState recEmptyAUs "p" "t1").2.current_baseline := by
  decide

/-- C9 (amended): two consecutive `set_baseline` calls with the same
valid record and person store baselines that agree on every field
except the timestamp, and are identical whenever the two calls observe
the same clock reading. -/
theorem C9_set_baseline_idempotent (s : ManagerState) (r : FacsResult)
    (pid t1 t2 : String) (hv : is_valid_facs_result r = true) :
    (set_baseline s r pid t1).2.current_baseline = some (mkBaselineData r pid t1) ∧
    (set_baseline (set_baseline s r pid t1).2 r pid t2).2.current_baseline =
      some (mkBaselineData r pid t2) ∧
    mkBaselineData r pid t2 = { mkBaselineData r pid t1 with timestamp := t2 } ∧
    (t1 = t2 →
      (set_baseline (set_baseline s r pid t1).2 r pid t2).2 =
        (set_baseline s r pid t1).2) := by
  unfold set_baseline
  simp only [if_pos hv]
  refine ⟨trivial, trivial, rfl, ?_⟩
  intro h
  subst h
  simp [storeSet_storeSet]

/-- C9 witness: the amended idempotence theorem applied to the
empty-`action_units` record. -/
theorem C9_witness :
    mkBaselineData recEmptyAUs "p" "t2" =
      { mkBaselineData recEmptyAUs "p" "t1" with timestamp := "t2" } :=
  (C9_set_baseline_idempotent emptyState recEmptyAUs "p" "t1" "t2" (by decide)).2.2.1

lemma map_au_mkDeltaEntry (bs cs : AUMap) :
    ∀ aus : List String, (aus.map (mkDeltaEntry bs cs)).map (fun e => e.au) = aus := by
  intro aus
  induction aus with
  | nil => rfl
  | cons a t ih =>
    simp only [List.map_cons, mkDeltaEntry_au, ih]

/-- C10: every entry of `significant_changes` (whose membership
requires an absolute raw delta above 0.2) is classified `moderate`,
`significant` or `major`, never `minimal`. -/
theorem C10_significant_never_minimal (s : ManagerState) (r : FacsResult)
    (res : DeltaResult) (h : calculate_delta s r = DeltaOutcome.ok res) :
    ∀ sc ∈ res.significant_changes,
      2 / 10 < |sc.delta| ∧ sc.change_type ≠ "minimal" ∧
      (sc.change_type = "moderate" ∨ sc.change_type = "significant" ∨
        sc.change_type = "major") := by
  intro sc hsc
  unfold calculate_delta at h
  cases hb : s.current_baseline with
  | none =>
    rw [hb] at h
    exact absurd h (by simp)
  | some b =>
    rw [hb] at h
    dsimp only at h
    by_cases hv : is_valid_facs_result r = true
    · rw [if_pos hv] at h
      injection h with h
      subst h
      dsimp only at hsc
      rw [(List.perm_insertionSort _ _).mem_iff] at hsc
      obtain ⟨au, _, hfa⟩ := List.mem_filterMap.mp hsc
      by_cases hd : 2 / 10 <
          |intensityOf (r.action_units.getD []) au - intensityOf b.action_units au|
      · rw [if_pos hd] at hfa
        injection hfa with hfa
        subst hfa
        obtain ⟨h1, h2⟩ := classify_of_sig hd
        exact ⟨hd, h1, h2⟩
      · rw [if_neg hd] at hfa
        exact absurd hfa (by simp)
    · rw [if_neg hv] at h
      exact absurd h (by simp)

/-- C10 witness: the theorem applied to the concrete AU12 scenario,
whose single significant change is classified `significant`. -/
theorem C10_witness :
    ({ au := "AU12", delta := 2 / 5, description := "Lip Corner Puller",
       change_type := "significant" } : SigChange).change_type ≠ "minimal" :=
  (C10_significant_never_minimal stateAU12 recAU12 resAU12 calc_AU12 _
    (List.mem_singleton.mpr rfl)).2.1

/-- C2: with an active baseline and a valid current record,
`calculate_delta` produces one delta entry per AU code in the union of
the two key sets (without duplicates), each entry holding the rounded
difference of the two intensities (a missing side contributing 0), and
a `total_movement` equal to the 2-decimal rounding of the sum of the
absolute rounded deltas. -/
theorem C2_delta_union (s : ManagerState) (b : BaselineData) (r : FacsResult)
    (hb : s.current_baseline = some b) (hv : is_valid_facs_result r = true) :
    ∃ res, calculate_delta s r = DeltaOutcome.ok res ∧
      (res.deltas.map (fun e => e.au)).Nodup ∧
      (∀ au : String, au ∈ res.deltas.map (fun e => e.au) ↔
        (au ∈ b.action_units.map (fun p => p.1) ∨
         au ∈ (r.action_units.getD []).map (fun p => p.1))) ∧
      (∀ en ∈ res.deltas,
        en.delta = roundTo 3 (intensityOf (r.action_units.getD []) en.au -
          intensityOf b.action_units en.au)) ∧
      res.total_movement = roundTo 2 ((res.deltas.map (fun e => |e.delta|)).sum) := by
  unfold calculate_delta
  rw [hb]
  dsimp only
  rw [if_pos hv]
  refine ⟨_, rfl, ?_, ?_, ?_, rfl⟩
  · dsimp only
    rw [map_au_mkDeltaEntry]
    exact nodup_counterKeys _
  · intro au
    dsimp only
    rw [map_au_mkDeltaEntry, mem_counterKeys, List.mem_append]
  · intro en hen
    dsimp only at hen
    obtain ⟨au, _, hau⟩ := List.mem_map.mp hen
    subst hau
    rfl

/-- C2 witness: the union theorem applied to the concrete AU12
scenario; the resulting total movement satisfies the stated rounding
equation. -/
theorem C2_witness :
    resAU12.total_movement = roundTo 2 ((resAU12.deltas.map (fun e => |e.delta|)).sum) := by
  obtain ⟨res, h1, _, _, _, h5⟩ := C2_delta_union stateAU12 baseAU12 recAU12 rfl (by decide)
  have hres : res = resAU12 := by
    have h2 := calc_AU12
    rw [h1] at h2
    injection h2
  rw [← hres]
  exact h5

lemma mem_keys_of_intensityOf_ne_zero {m : AUMap} {au : String}
    (h : intensityOf m au ≠ 0) : au ∈ m.map (fun p => p.1) := by
  unfold intensityOf lookupAU at h
  cases hf : m.find? (fun p => p.1 == au) with
  | none => rw [hf] at h; simp at h
  | some p =>
    have hp := List.find?_some hf
    have hmem := List.mem_of_find?_eq_some hf
    exact List.mem_map.mpr ⟨p, hmem, eq_of_beq hp⟩

/-- C5 counterexample: on the concrete baseline AU12 = 0.2 and current
AU12 = 0.6 the delta entry is classified `significant`, not `major` as
the claim states. -/
theorem C5_counterexample :
    ((resAU12.deltas.find? (fun e => e.au == "AU12")).map (fun e => e.change_type)) =
      some "significant" ∧
    "significant" ≠ "major" ∧
    calculate_delta stateAU12 recAU12 = DeltaOutcome.ok resAU12 :=
  ⟨by decide, by decide, calc_AU12⟩

/-- C5 (amended): with baseline AU12 at 0.2, current AU12 at 0.6 and a
raw AU06 delta of at most 0.2, `calculate_delta` reports delta 0.4 for
AU12, classifies it `significant` (0.3 is at most 0.4 which is below 0.5),
includes AU12 in the significant changes (0.4 is above 0.2), and
reports the movement pattern Social Smile Development with
intensity 0.4. -/
theorem C5_delta_round_trip (s : ManagerState) (b : BaselineData) (r : FacsResult)
    (hb : s.current_baseline = some b) (hv : is_valid_facs_result r = true)
    (h12b : intensityOf b.action_units "AU12" = 2 / 10)
    (h12c : intensityOf (r.action_units.getD []) "AU12" = 6 / 10)
    (h06 : intensityOf (r.action_units.getD []) "AU06" -
           intensityOf b.action_units "AU06" ≤ 2 / 10) :
    ∃ res, calculate_delta s r = DeltaOutcome.ok res ∧
      (∃ en ∈ res.deltas, en.au = "AU12" ∧ en.delta = 4 / 10 ∧
        en.change_type = "significant") ∧
      (∃ sc ∈ res.significant_changes, sc.au = "AU12" ∧ sc.delta = 4 / 10) ∧
      (∃ p ∈ res.movement_patterns, p.pattern = "Social Smile Development" ∧
        p.intensity = 4 / 10) := by
  have hdraw : intensityOf (r.action_units.getD []) "AU12" -
      intensityOf b.action_units "AU12" = 4 / 10 := by
    rw [h12b, h12c]; norm_num
  have hmem12c : "AU12" ∈ (r.action_units.getD []).map (fun p => p.1) :=
    mem_keys_of_intensityOf_ne_zero (by rw [h12c]; norm_num)
  have hall : "AU12" ∈ counterKeys (b.action_units.map (fun p => p.1) ++
      (r.action_units.getD []).map (fun p => p.1)) :=
    mem_counterKeys.mpr (List.mem_append.mpr (Or.inr hmem12c))
  have hround : roundTo 3 ((4 : ℚ) / 10) = 4 / 10 := by norm_num [roundTo, ratRound]
  have hclass : classify_change ((4 : ℚ) / 10) = "significant" := by
    norm_num [classify_change, abs_of_nonneg]
  have hdelta : (mkDeltaEntry b.action_units (r.action_units.getD []) "AU12").delta
      = 4 / 10 := by
    have h0 : (mkDeltaEntry b.action_units (r.action_units.getD []) "AU12").delta =
        roundTo 3 (intensityOf (r.action_units.getD []) "AU12" -
          intensityOf b.action_units "AU12") := rfl
    rw [h0, hdraw, hround]
  have hct : (mkDeltaEntry b.action_units (r.action_units.getD []) "AU12").change_type
      = "significant" := by
    have h0 : (mkDeltaEntry b.action_units (r.action_units.getD []) "AU12").change_type =
        classify_change (intensityOf (r.action_units.getD []) "AU12" -
          intensityOf b.action_units "AU12") := rfl
    rw [h0, hdraw, hclass]
  unfold calculate_delta
  rw [hb]
  dsimp only
  rw [if_pos hv]
  refine ⟨_, rfl, ?_, ?_, ?_⟩
  · exact ⟨mkDeltaEntry b.action_units (r.action_units.getD []) "AU12",
      List.mem_map.mpr ⟨"AU12", hall, rfl⟩, rfl, hdelta, hct⟩
  · have hcond : 2 / 10 < |intensityOf (r.action_units.getD []) "AU12" -
        intensityOf b.action_units "AU12"| := by
      rw [hdraw]
      norm_num [abs_of_nonneg]
    refine ⟨{ au := "AU12",
              delta := intensityOf (r.action_units.getD []) "AU12" -
                intensityOf b.action_units "AU12",
              description :=
                (mkDeltaEntry b.action_units (r.action_units.getD []) "AU12").description,
              change_type :=
                classify_change (intensityOf (r.action_units.getD []) "AU12" -
                  intensityOf b.action_units "AU12") }, ?_, rfl, hdraw⟩
    rw [(List.perm_insertionSort _ _).mem_iff]
    refine List.mem_filterMap.mpr ⟨"AU12", hall, ?_⟩
    dsimp only
    rw [if_pos hcond]
  · have hg12 : getPatternDelta ((counterKeys (b.action_units.map (fun p => p.1) ++
        (r.action_units.getD []).map (fun p => p.1))).map
          (mkDeltaEntry b.action_units (r.action_units.getD []))) "AU12" = 4 / 10 := by
      rw [getPatternDelta_of_mem hall, hdraw, hround]
    have hg06 : getPatternDelta ((counterKeys (b.action_units.map (fun p => p.1) ++
        (r.action_units.getD []).map (fun p => p.1))).map
          (mkDeltaEntry b.action_units (r.action_units.getD []))) "AU06" ≤ 2 / 10 := by
      by_cases hm : "AU06" ∈ counterKeys (b.action_units.map (fun p => p.1) ++
          (r.action_units.getD []).map (fun p => p.1))
      · rw [getPatternDelta_of_mem hm]
        calc roundTo 3 (intensityOf (r.action_units.getD []) "AU06" -
              intensityOf b.action_units "AU06") ≤ roundTo 3 ((2 : ℚ) / 10) :=
            roundTo_mono h06
          _ = 2 / 10 := by norm_num [roundTo, ratRound]
      · rw [getPatternDelta_of_not_mem hm]
        norm_num
    unfold detect_movement_patterns
    dsimp only
    rw [hg12, if_pos (by norm_num : (4 : ℚ) / 10 > 3 / 10),
      if_neg (not_lt.mpr hg06)]
    exact ⟨_, List.mem_append.mpr (Or.inl (List.mem_append.mpr (Or.inl
      (List.mem_singleton.mpr rfl)))), rfl, rfl⟩

/-- C5 witness: the amended theorem applied to the concrete AU12
scenario pins the Social Smile pattern intensity to 0.4. -/
theorem C5_witness : socialAU12.intensity = 4 / 10 := by
  obtain ⟨res, h1, _, _, h4⟩ :=
    C5_delta_round_trip stateAU12 baseAU12 recAU12 rfl (by decide)
      (by norm_num [intensityOf, lookupAU, baseAU12, List.find?_cons_of_pos,
        beq_self_eq_true])
      (by norm_num [intensityOf, lookupAU, recAU12, List.find?_cons_of_pos,
        beq_self_eq_true])
      (by norm_num [intensityOf, lookupAU, recAU12, baseAU12, List.find?_cons_of_pos,
        List.find?_cons_of_neg, List.find?_nil]
          norm_num +decide)
  have hres : res = resAU12 := by
    have h2 := calc_AU12
    rw [h1] at h2
    injection h2
  subst hres
  obtain ⟨p, hp, _, hint⟩ := h4
  have hps : p = socialAU12 := by
    simpa [resAU12] using hp
  rw [← hps]
  exact hint

/-- C6 counterexample: on a delta map with AU12 delta 0.401 and AU06
delta 0.202 the Duchenne pattern is reported with intensity 0.3, the
2-decimal rounding of the mean 0.3015, which differs from the mean
itself, contradicting the claim that the intensity equals the mean. -/
theorem C6_counterexample :
    (((detect_movement_patterns ds6).find?
        (fun p => p.pattern == "Duchenne Smile Development")).map
          (fun p => p.intensity)) = some (3 / 10) ∧
    (3 / 10 : ℚ) ≠ (401 / 1000 + 202 / 1000) / 2 := by
  rw [detect_ds6]
  constructor
  · rfl
  · norm_num

/-- C6 (amended): pattern detection on a delta map reports Duchenne
Smile Development exactly when the AU12 delta is above 0.3 and the
AU06 delta is above 0.2 (intensity: mean of the two rounded to 2
decimals); otherwise Social Smile Development exactly when the AU12
delta is above 0.3 (intensity: the AU12 delta, making Duchenne and
Social mutually exclusive); Frown Development exactly when the AU15 or
the AU04 delta is above 0.3 (intensity: their maximum); and Brow Flash
exactly when both the AU01 and AU02 deltas are above 0.2 (intensity:
their mean rounded to 2 decimals). -/
theorem C6_movement_patterns (ds : List DeltaEntry) :
    ((∃ p ∈ detect_movement_patterns ds, p.pattern = "Duchenne Smile Development") ↔
      (getPatternDelta ds "AU12" > 3 / 10 ∧ getPatternDelta ds "AU06" > 2 / 10)) ∧
    (∀ p ∈ detect_movement_patterns ds, p.pattern = "Duchenne Smile Development" →
      p.intensity = roundTo 2 ((getPatternDelta ds "AU12" +
        getPatternDelta ds "AU06") / 2)) ∧
    ((∃ p ∈ detect_movement_patterns ds, p.pattern = "Social Smile Development") ↔
      (getPatternDelta ds "AU12" > 3 / 10 ∧ ¬ getPatternDelta ds "AU06" > 2 / 10)) ∧
    (∀ p ∈ detect_movement_patterns ds, p.pattern = "Social Smile Development" →
      p.intensity = getPatternDelta ds "AU12") ∧
    ((∃ p ∈ detect_movement_patterns ds, p.pattern = "Frown Development") ↔
      (getPatternDelta ds "AU15" > 3 / 10 ∨ getPatternDelta ds "AU04" > 3 / 10)) ∧
    (∀ p ∈ detect_movement_patterns ds, p.pattern = "Frown Development" →
      p.intensity = max (getPatternDelta ds "AU15") (getPatternDelta ds "AU04")) ∧
    ((∃ p ∈ detect_movement_patterns ds, p.pattern = "Brow Flash") ↔
      (getPatternDelta ds "AU01" > 2 / 10 ∧ getPatternDelta ds "AU02" > 2 / 10)) ∧
    (∀ p ∈ detect_movement_patterns ds, p.pattern = "Brow Flash" →
      p.intensity = roundTo 2 ((getPatternDelta ds "AU01" +
        getPatternDelta ds "AU02") / 2)) := by
  unfold detect_movement_patterns
  by_cases c12 : getPatternDelta ds "AU12" > 3 / 10 <;>
    by_cases c06 : getPatternDelta ds "AU06" > 2 / 10 <;>
    by_cases cf : getPatternDelta ds "AU15" > 3 / 10 ∨ getPatternDelta ds "AU04" > 3 / 10 <;>
    by_cases cb : getPatternDelta ds "AU01" > 2 / 10 ∧ getPatternDelta ds "AU02" > 2 / 10 <;>
    simp +decide [c12, c06, cf, cb, List.mem_append]

/-- C6 witness: on `ds6` the Duchenne condition is established through
the detected pattern list. -/
theorem C6_witness :
    getPatternDelta ds6 "AU12" > 3 / 10 ∧ getPatternDelta ds6 "AU06" > 2 / 10 :=
  (C6_movement_patterns ds6).1.mp
    ⟨duchenne6, by rw [detect_ds6]; exact List.mem_singleton.mpr rfl, rfl⟩

/-- C3: on a non-empty list of dominant labels the consensus is the
common label with unanimous true and confidence high when all labels
agree; otherwise it is a most frequent label whose first occurrence
precedes that of every other label with the same count, with unanimous
false, confidence medium exactly when its count exceeds half the
participants (low otherwise), and an agreement ratio of the winning
count over the participant count rounded to 2 decimals; in particular
on labels A, A, B the consensus is A, not unanimous, with agreement
ratio 0.67. -/
theorem C3_consensus :
    (∀ (a : String) (rest : List String),
      ((∀ x ∈ a :: rest, x = a) →
        consensusOf (a :: rest) =
          some { emotion := a, unanimous := true, confidence := "high",
                 agreement_ratio := none }) ∧
      ((∃ x ∈ a :: rest, x ≠ a) →
        ∃ e, consensusOf (a :: rest) =
            some { emotion := e, unanimous := false,
                   confidence := if (a :: rest).length < (a :: rest).count e * 2
                     then "medium" else "low",
                   agreement_ratio := some (roundTo 2
                     (((a :: rest).count e : ℚ) / ((a :: rest).length : ℚ))) } ∧
          e ∈ a :: rest ∧
          (∀ x ∈ a :: rest, (a :: rest).count x ≤ (a :: rest).count e) ∧
          (∀ x ∈ a :: rest, (a :: rest).count x = (a :: rest).count e → x ≠ e →
            (a :: rest).indexOf e < (a :: rest).indexOf x))) ∧
    consensusOf ["A", "A", "B"] =
      some { emotion := "A", unanimous := false, confidence := "medium",
             agreement_ratio := some (67 / 100) } := by
  constructor
  · intro a rest
    constructor
    · intro hall
      unfold consensusOf
      dsimp only
      have ht : rest.all (fun x => x == a) = true := by
        rw [List.all_eq_true]
        intro x hx
        exact beq_iff_eq.mpr (hall x (List.mem_cons_of_mem _ hx))
      rw [if_pos ht]
    · rintro ⟨x, hx, hxa⟩
      unfold consensusOf
      dsimp only
      have hf : ¬ rest.all (fun y => y == a) = true := by
        intro hc
        rw [List.all_eq_true] at hc
        rcases List.mem_cons.mp hx with h1 | h1
        · exact hxa h1
        · exact hxa (beq_iff_eq.mp (hc x h1))
      rw [if_neg hf]
      obtain ⟨e, he⟩ := mostCommon1_isSome (a := a) (t := rest)
      rw [he]
      obtain ⟨hmem, hmax, htie⟩ := mostCommon1_spec he
      exact ⟨e, rfl, hmem, hmax, htie⟩
  · norm_num [consensusOf, mostCommon1, counterKeys, counterKeysAux, argmaxF,
      roundTo, ratRound, abs_of_nonneg, List.count_cons, List.count_nil]
    norm_num +decide

/-- C3 witness: the consensus theorem applied to the unanimous label
list A, A, A. -/
theorem C3_witness :
    consensusOf ["A", "A", "A"] =
      some { emotion := "A", unanimous := true, confidence := "high",
             agreement_ratio := none } :=
  (C3_consensus.1 "A" ["A", "A"]).1 (by decide)

/-- C7: each detector adapter is a total function of the underlying
detector outcome (exceptions are modelled as an outcome constructor,
so the adapter never propagates one), and on every failure outcome of
its wrapped library (an exception, a no-face result, or empty score
data) it returns a record with `face_detected` false and an error
description attached. -/
theorem C7_adapters_fail_safe :
    (∀ o : FEROutcome, ferFailure o →
      (fer_detect o).face_detected = false ∧ (fer_detect o).error.isSome = true) ∧
    (∀ o : DFOutcome, dfFailure o →
      (df_detect o).face_detected = false ∧ (df_detect o).error.isSome = true) ∧
    (∀ o : FACSOutcome, facsFailure o →
      (facs_analyze o).face_detected = false ∧ (facs_analyze o).error.isSome = true) := by
  refine ⟨?_, ?_, ?_⟩
  · intro o hf
    cases o with
    | raises m => exact ⟨rfl, rfl⟩
    | ok faces =>
      cases faces with
      | nil => exact ⟨rfl, rfl⟩
      | cons f t => exact absurd hf (by simp [ferFailure])
  · intro o hf
    cases o with
    | importError m => exact ⟨rfl, rfl⟩
    | raises m => exact ⟨rfl, rfl⟩
    | ok es =>
      cases es with
      | nil => exact ⟨rfl, rfl⟩
      | cons e t => exact absurd hf (by simp [dfFailure])
  · intro o hf
    cases o with
    | importError m => exact ⟨rfl, rfl⟩
    | raises m => exact ⟨rfl, rfl⟩
    | ok rows =>
      cases rows with
      | nil => exact ⟨rfl, rfl⟩
      | cons row t => exact absurd hf (by simp [facsFailure])

/-- C7 witness: the FER adapter on an empty face list yields a no-face
error record. -/
theorem C7_witness :
    (fer_detect (FEROutcome.ok [])).face_detected = false ∧
    (fer_detect (FEROutcome.ok [])).error.isSome = true :=
  C7_adapters_fail_safe.1 (FEROutcome.ok []) rfl

end EmotionApp
